import Mathlib

/-!
Formal model of the canvas image-editor: the viewport/selection geometry
engine and the embedded-metadata (DPI) parsers, translated from the editor
component source.  JavaScript numbers are modelled as exact rationals, byte
buffers as lists of naturals, and DataView reads that can raise a RangeError
are modelled in the Except monad, with error () standing for a thrown
exception escaping the parser.
-/

/-- Stage and loaded-image environment: the fixed stage pixel dimensions and
the image natural dimensions, as held by the editor component. -/
structure Env where
  stageWidth : ℚ
  stageHeight : ℚ
  naturalWidth : ℚ
  naturalHeight : ℚ
deriving DecidableEq

/-- Pan offset from the centered image position (the imageOffset state). -/
@[ext]
structure Offset where
  x : ℚ
  y : ℚ
deriving DecidableEq

/-- displayedImageWidth = baseDisplayWidth * imageScale with
baseDisplayWidth = stageWidth. -/
def displayedImageWidth (e : Env) (scale : ℚ) : ℚ := e.stageWidth * scale

/-- displayedImageHeight = naturalHeight * displayedImageWidth / naturalWidth
(the branch with a loaded image). -/
def displayedImageHeight (e : Env) (scale : ℚ) : ℚ :=
  e.naturalHeight * displayedImageWidth e scale / e.naturalWidth

/-- baseX = (stageWidth - displayedImageWidth) / 2. -/
def baseX (e : Env) (scale : ℚ) : ℚ := (e.stageWidth - displayedImageWidth e scale) / 2

/-- baseY = (stageHeight - displayedImageHeight) / 2. -/
def baseY (e : Env) (scale : ℚ) : ℚ := (e.stageHeight - displayedImageHeight e scale) / 2

/-- clampOffset of the editor, in the loaded-image case: per axis the bounds
start as [stageExtent - displayedExtent, 0] and are both overwritten with the
centering value (stageExtent - displayedExtent) / 2 - basePosition when the
displayed extent is smaller than the stage extent; the candidate is clamped
into [min, max]. -/
def clampOffset (e : Env) (scale : ℚ) (off : Offset) : Offset :=
  let dW := displayedImageWidth e scale
  let dH := displayedImageHeight e scale
  let minX := if dW < e.stageWidth then (e.stageWidth - dW) / 2 - baseX e scale
              else e.stageWidth - dW
  let maxX := if dW < e.stageWidth then (e.stageWidth - dW) / 2 - baseX e scale
              else 0
  let minY := if dH < e.stageHeight then (e.stageHeight - dH) / 2 - baseY e scale
              else e.stageHeight - dH
  let maxY := if dH < e.stageHeight then (e.stageHeight - dH) / 2 - baseY e scale
              else 0
  { x := max minX (min maxX off.x), y := max minY (min maxY off.y) }

/-- Scale clamping used by the wheel/slider zoom handlers:
Math.max(MIN_ZOOM, Math.min(MAX_ZOOM, s)) with MIN_ZOOM = 0.2, MAX_ZOOM = 3. -/
def zoomClampedScale (s : ℚ) : ℚ := max (1 / 5) (min 3 s)

/-- Image-space point under the pointer before the zoom:
(pointer - base - offset) / oldScale, per axis. -/
def imagePointBefore (e : Env) (scale : ℚ) (off : Offset) (px py : ℚ) : Offset :=
  { x := (px - baseX e scale - off.x) / scale,
    y := (py - baseY e scale - off.y) / scale }

/-- Raw new offset computed by handleWheel before clampOffset:
pointer - base - imagePointBefore * clampedScale, with base taken at the
pre-zoom scale, exactly as in the handler. -/
def zoomRawOffset (e : Env) (scale : ℚ) (off : Offset) (px py s : ℚ) : Offset :=
  { x := px - baseX e scale - (imagePointBefore e scale off px py).x * zoomClampedScale s,
    y := py - baseY e scale - (imagePointBefore e scale off px py).y * zoomClampedScale s }

/-- One zoom step of handleWheel, with the wheel-derived requested scale
abstracted as the parameter s: the handler sets the scale to the clamped
requested scale and the offset to clampOffset of the raw offset, where the
captured clampOffset closure still uses the pre-zoom geometry. -/
def zoomAt (e : Env) (scale : ℚ) (off : Offset) (px py s : ℚ) : ℚ × Offset :=
  (zoomClampedScale s, clampOffset e scale (zoomRawOffset e scale off px py s))

/-- Selection rectangle in stage coordinates. -/
@[ext]
structure Sel where
  x : ℚ
  y : ℚ
  width : ℚ
  height : ℚ
deriving DecidableEq

/-- clampSelection of the editor: the four sequential corrections
(x < 0, y < 0, x + width > stageWidth, y + height > stageHeight), each
translating the rectangle; width and height are never changed. -/
def clampSelection (stageW stageH : ℚ) (sel : Sel) : Sel :=
  let x1 := if sel.x < 0 then 0 else sel.x
  let y1 := if sel.y < 0 then 0 else sel.y
  let x2 := if x1 + sel.width > stageW then stageW - sel.width else x1
  let y2 := if y1 + sel.height > stageH then stageH - sel.height else y1
  { x := x2, y := y2, width := sel.width, height := sel.height }

/-- JavaScript Math.round on an exact rational: floor (q + 1/2). -/
def jround (q : ℚ) : ℤ := ⌊q + 1 / 2⌋

/-- Transformer bounding box (Konva box shape). -/
@[ext]
structure Box where
  x : ℚ
  y : ℚ
  width : ℚ
  height : ℚ
  rotation : ℚ
deriving DecidableEq

/-- boundBoxFunc of the Transformer: reject boxes under the minimum size of
10 by returning oldBox; with aspect lock on, the axis whose absolute change
is strictly larger drives (ties fall to the height branch) and the other axis
is recomputed from the driving one, preserving the sign of newBox's replaced
dimension; with aspect lock off, newBox is returned as-is. -/
def boundBoxFunc (keepRatio : Bool) (ar : ℚ) (oldBox newBox : Box) : Box :=
  if |newBox.width| < 10 ∨ |newBox.height| < 10 then oldBox
  else if keepRatio then
    let widthChange := |newBox.width - oldBox.width|
    let heightChange := |newBox.height - oldBox.height|
    if widthChange > heightChange then
      let newHeight := |newBox.width| / ar
      { newBox with height := if newBox.height < 0 then -newHeight else newHeight }
    else
      let newWidth := |newBox.height| * ar
      { newBox with width := if newBox.width < 0 then -newWidth else newWidth }
  else newBox

/-- Reference resize contract, written from the claim text: reject boxes with
a dimension under the minimum size; with aspect lock off accept newBox; with
aspect lock on, let the axis with the strictly larger absolute size change
drive, recompute the other axis as driving / ar (height from width) or
driving * ar (width from height), preserving the sign of newBox's non-driving
dimension. -/
def resizeReference (aspectLocked : Bool) (ar : ℚ) (oldBox newBox : Box) : Box :=
  if |newBox.width| < 10 ∨ |newBox.height| < 10 then oldBox
  else if aspectLocked = false then newBox
  else if |newBox.width - oldBox.width| > |newBox.height - oldBox.height| then
    { newBox with height := if newBox.height < 0 then -(|newBox.width| / ar)
                            else |newBox.width| / ar }
  else
    { newBox with width := if newBox.width < 0 then -(|newBox.height| * ar)
                           else |newBox.height| * ar }

/-- Crop region in the source image's native pixel space. -/
@[ext]
structure CropRegion where
  sx : ℤ
  sy : ℤ
  sWidth : ℤ
  sHeight : ℤ
deriving DecidableEq

/-- Crop metadata computed by exportCropped: display-space distances from the
image top-left, scaled by scaleNat = naturalWidth / displayedImageWidth, each
rounded with Math.round. -/
def exportCropRegion (e : Env) (scale : ℚ) (off : Offset) (sel : Sel) : CropRegion :=
  let sxOnDisplay := sel.x - (baseX e scale + off.x)
  let syOnDisplay := sel.y - (baseY e scale + off.y)
  let scaleNat := e.naturalWidth / displayedImageWidth e scale
  { sx := jround (sxOnDisplay * scaleNat),
    sy := jround (syOnDisplay * scaleNat),
    sWidth := jround (sel.width * scaleNat),
    sHeight := jround (sel.height * scaleNat) }

/-- State of the selection rect node as seen by handleRectTransformEnd. -/
@[ext]
structure RectNode where
  x : ℚ
  y : ℚ
  width : ℚ
  height : ℚ
  scaleX : ℚ
  scaleY : ℚ
deriving DecidableEq

/-- handleRectTransformEnd: reset the node scale factors to 1 and store the
selection with width = round(width * scaleX), height = round(height * scaleY)
and x, y taken from the node; the result is stored directly as the new
selection state. -/
def handleRectTransformEnd (n : RectNode) : RectNode × Sel :=
  ({ n with scaleX := 1, scaleY := 1 },
   { x := n.x, y := n.y,
     width := (jround (n.width * n.scaleX) : ℚ),
     height := (jround (n.height * n.scaleY) : ℚ) })

/-- Claim C3: the interactive resize bound function agrees with the reference
resize contract on every oldBox/newBox pair (rejection under the minimum
size, pass-through without aspect lock, driving axis by strictly larger
absolute change with sign-preserving recomputation of the other axis), and on
oldBox = 100 x 100, newBox = 130 x 110 the width 130 drives and the height is
recomputed as 130 / ar. -/
theorem c3_resize_matches_reference :
    (∀ (keepRatio : Bool) (ar : ℚ) (oldBox newBox : Box),
        boundBoxFunc keepRatio ar oldBox newBox = resizeReference keepRatio ar oldBox newBox) ∧
    (∀ (ar x0 y0 r0 x1 y1 r1 : ℚ),
        boundBoxFunc true ar ⟨x0, y0, 100, 100, r0⟩ ⟨x1, y1, 130, 110, r1⟩
          = ⟨x1, y1, 130, 130 / ar, r1⟩) := by
  constructor
  · intro keepRatio ar oldBox newBox
    cases keepRatio <;> simp [boundBoxFunc, resizeReference]
  · intro ar x0 y0 r0 x1 y1 r1
    simp only [boundBoxFunc]
    norm_num

/-- Claim C6: under width ≤ stageWidth and height ≤ stageHeight,
clampSelection only translates: it keeps width and height and returns
x in [0, stageWidth - width] and y in [0, stageHeight - height]. -/
theorem c6_clampSelection_translates (stageW stageH : ℚ) (sel : Sel)
    (hw : sel.width ≤ stageW) (hh : sel.height ≤ stageH) :
    (clampSelection stageW stageH sel).width = sel.width ∧
    (clampSelection stageW stageH sel).height = sel.height ∧
    0 ≤ (clampSelection stageW stageH sel).x ∧
    (clampSelection stageW stageH sel).x ≤ stageW - sel.width ∧
    0 ≤ (clampSelection stageW stageH sel).y ∧
    (clampSelection stageW stageH sel).y ≤ stageH - sel.height := by
  refine ⟨rfl, rfl, ?_, ?_, ?_, ?_⟩ <;>
    simp only [clampSelection] <;> split_ifs <;> simp_all <;> linarith

/-- Witness for c6_clampSelection_translates at stage 800 x 600 and the
selection (900, -50, 300, 200). -/
theorem c6_clampSelection_translates_witness :
    ((300 : ℚ) ≤ 800 ∧ (200 : ℚ) ≤ 600) ∧
    ((clampSelection 800 600 ⟨900, -50, 300, 200⟩).width = 300 ∧
     (clampSelection 800 600 ⟨900, -50, 300, 200⟩).height = 200 ∧
     0 ≤ (clampSelection 800 600 ⟨900, -50, 300, 200⟩).x ∧
     (clampSelection 800 600 ⟨900, -50, 300, 200⟩).x ≤ 800 - 300 ∧
     0 ≤ (clampSelection 800 600 ⟨900, -50, 300, 200⟩).y ∧
     (clampSelection 800 600 ⟨900, -50, 300, 200⟩).y ≤ 600 - 200) :=
  ⟨⟨by norm_num, by norm_num⟩,
   c6_clampSelection_translates 800 600 ⟨900, -50, 300, 200⟩ (by norm_num) (by norm_num)⟩

/-- Claim C10: when both newBox dimensions are at least the minimum size, the
bound function with aspect lock off returns newBox verbatim; with aspect lock
on it keeps x, y, rotation and the driving dimension from newBox and replaces
only the non-driving dimension. -/
theorem c10_boundBox_frame (ar : ℚ) (oldBox newBox : Box)
    (hw : 10 ≤ |newBox.width|) (hh : 10 ≤ |newBox.height|) :
    boundBoxFunc false ar oldBox newBox = newBox ∧
    (boundBoxFunc true ar oldBox newBox).x = newBox.x ∧
    (boundBoxFunc true ar oldBox newBox).y = newBox.y ∧
    (boundBoxFunc true ar oldBox newBox).rotation = newBox.rotation ∧
    (|newBox.width - oldBox.width| > |newBox.height - oldBox.height| →
      (boundBoxFunc true ar oldBox newBox).width = newBox.width) ∧
    (¬ |newBox.width - oldBox.width| > |newBox.height - oldBox.height| →
      (boundBoxFunc true ar oldBox newBox).height = newBox.height) := by
  have hguard : ¬ (|newBox.width| < 10 ∨ |newBox.height| < 10) := by
    push_neg
    exact ⟨hw, hh⟩
  simp only [boundBoxFunc, if_neg hguard]
  refine ⟨rfl, ?_, ?_, ?_, ?_, ?_⟩ <;> split_ifs <;> simp_all

/-- Witness for c10_boundBox_frame at ar = 1, oldBox (0,0,100,100,0) and
newBox (5,6,130,110,7). -/
theorem c10_boundBox_frame_witness :
    ((10 : ℚ) ≤ |(130 : ℚ)| ∧ (10 : ℚ) ≤ |(110 : ℚ)|) ∧
    (boundBoxFunc false 1 ⟨0, 0, 100, 100, 0⟩ ⟨5, 6, 130, 110, 7⟩ = ⟨5, 6, 130, 110, 7⟩ ∧
     (boundBoxFunc true 1 ⟨0, 0, 100, 100, 0⟩ ⟨5, 6, 130, 110, 7⟩).x = 5 ∧
     (boundBoxFunc true 1 ⟨0, 0, 100, 100, 0⟩ ⟨5, 6, 130, 110, 7⟩).y = 6 ∧
     (boundBoxFunc true 1 ⟨0, 0, 100, 100, 0⟩ ⟨5, 6, 130, 110, 7⟩).rotation = 7 ∧
     (|(130 : ℚ) - 100| > |(110 : ℚ) - 100| →
       (boundBoxFunc true 1 ⟨0, 0, 100, 100, 0⟩ ⟨5, 6, 130, 110, 7⟩).width = 130) ∧
     (¬ |(130 : ℚ) - 100| > |(110 : ℚ) - 100| →
       (boundBoxFunc true 1 ⟨0, 0, 100, 100, 0⟩ ⟨5, 6, 130, 110, 7⟩).height = 110)) :=
  ⟨⟨by norm_num, by norm_num⟩,
   c10_boundBox_frame 1 ⟨0, 0, 100, 100, 0⟩ ⟨5, 6, 130, 110, 7⟩ (by norm_num) (by norm_num)⟩

/-- Claim C4: the export mapper computes sx = (selection.x - (baseX + offset.x)) * scaleNat,
sy = (selection.y - (baseY + offset.y)) * scaleNat, sWidth = width * scaleNat,
sHeight = height * scaleNat with scaleNat = naturalWidth / displayedImageWidth, each
rounded to an integer; at stage 800 x 600, scale 1, offset 0, natural image
1600 x 1200 and selection (100, 100, 200, 150) the crop region is
(200, 200, 400, 300). -/
theorem c4_export_mapping :
    (∀ (e : Env) (scale : ℚ) (off : Offset) (sel : Sel),
        exportCropRegion e scale off sel =
          { sx := jround ((sel.x - (baseX e scale + off.x)) *
                    (e.naturalWidth / displayedImageWidth e scale)),
            sy := jround ((sel.y - (baseY e scale + off.y)) *
                    (e.naturalWidth / displayedImageWidth e scale)),
            sWidth := jround (sel.width * (e.naturalWidth / displayedImageWidth e scale)),
            sHeight := jround (sel.height * (e.naturalWidth / displayedImageWidth e scale)) }) ∧
    exportCropRegion ⟨800, 600, 1600, 1200⟩ 1 ⟨0, 0⟩ ⟨100, 100, 200, 150⟩
      = ⟨200, 200, 400, 300⟩ := by
  refine ⟨fun e scale off sel => rfl, ?_⟩
  simp only [exportCropRegion, baseX, baseY, displayedImageWidth, displayedImageHeight]
  norm_num [jround]

/-- Claim C1 (code bug witness): at stage 800 x 600, natural image 1600 x 1200,
scale 1, offset 0, pointer (400, 300) and wheel-requested scale 21/20, the
new scale is the clamped requested scale, but the image-space point that was
under the pointer lands at stage position 380, not 400: the handler computes
the new offset against the pre-zoom baseX, so the anchored point drifts by
newBaseX - oldBaseX. -/
theorem c1_wheel_anchor_drift :
    zoomClampedScale (21 / 20) = 21 / 20 ∧
    baseX ⟨800, 600, 1600, 1200⟩ (zoomClampedScale (21 / 20))
        + (zoomRawOffset ⟨800, 600, 1600, 1200⟩ 1 ⟨0, 0⟩ 400 300 (21 / 20)).x
        + (imagePointBefore ⟨800, 600, 1600, 1200⟩ 1 ⟨0, 0⟩ 400 300).x
          * zoomClampedScale (21 / 20) = 380 ∧
    (380 : ℚ) ≠ 400 := by
  norm_num [zoomClampedScale, baseX, displayedImageWidth, zoomRawOffset, imagePointBefore,
    baseY, displayedImageHeight, max_def, min_def]

/-- Claim C2 (amended): per axis, clampOffset forces the centering offset when
the displayed extent is smaller than the stage extent, and otherwise clamps
the candidate into [stageExtent - displayedExtent, 0]; membership in that
interval does not imply that the image covers the whole stage axis. -/
theorem c2_clampOffset_amended (e : Env) (scale : ℚ) (off : Offset) :
    (displayedImageWidth e scale < e.stageWidth →
        (clampOffset e scale off).x
            = (e.stageWidth - displayedImageWidth e scale) / 2 - baseX e scale ∧
        baseX e scale + (clampOffset e scale off).x
            = (e.stageWidth - displayedImageWidth e scale) / 2) ∧
    (¬ displayedImageWidth e scale < e.stageWidth →
        e.stageWidth - displayedImageWidth e scale ≤ (clampOffset e scale off).x ∧
        (clampOffset e scale off).x ≤ 0) ∧
    (displayedImageHeight e scale < e.stageHeight →
        (clampOffset e scale off).y
            = (e.stageHeight - displayedImageHeight e scale) / 2 - baseY e scale ∧
        baseY e scale + (clampOffset e scale off).y
            = (e.stageHeight - displayedImageHeight e scale) / 2) ∧
    (¬ displayedImageHeight e scale < e.stageHeight →
        e.stageHeight - displayedImageHeight e scale ≤ (clampOffset e scale off).y ∧
        (clampOffset e scale off).y ≤ 0) := by
  simp only [clampOffset]
  refine ⟨fun h => ?_, fun h => ?_, fun h => ?_, fun h => ?_⟩
  · rw [if_pos h, if_pos h, max_eq_left (min_le_left _ _)]
    exact ⟨rfl, by ring⟩
  · rw [if_neg h, if_neg h]
    push_neg at h
    exact ⟨le_max_left _ _, max_le (by linarith) (min_le_left _ _)⟩
  · rw [if_pos h, if_pos h, max_eq_left (min_le_left _ _)]
    exact ⟨rfl, by ring⟩
  · rw [if_neg h, if_neg h]
    push_neg at h
    exact ⟨le_max_left _ _, max_le (by linarith) (min_le_left _ _)⟩

/-- Witness for c2_clampOffset_amended: the centered branch at scale 1/2 and
the interval branch at scale 2, stage 800 x 600, natural image 1600 x 1200. -/
theorem c2_clampOffset_amended_witness :
    (clampOffset ⟨800, 600, 1600, 1200⟩ (1 / 2) ⟨123, -77⟩).x
        = ((⟨800, 600, 1600, 1200⟩ : Env).stageWidth
            - displayedImageWidth ⟨800, 600, 1600, 1200⟩ (1 / 2)) / 2
          - baseX ⟨800, 600, 1600, 1200⟩ (1 / 2) ∧
    (⟨800, 600, 1600, 1200⟩ : Env).stageWidth
        - displayedImageWidth ⟨800, 600, 1600, 1200⟩ 2
      ≤ (clampOffset ⟨800, 600, 1600, 1200⟩ 2 ⟨123, -77⟩).x :=
  ⟨((c2_clampOffset_amended ⟨800, 600, 1600, 1200⟩ (1 / 2) ⟨123, -77⟩).1
      (by norm_num [displayedImageWidth])).1,
   ((c2_clampOffset_amended ⟨800, 600, 1600, 1200⟩ 2 ⟨123, -77⟩).2.1
      (by norm_num [displayedImageWidth])).1⟩

/-- Claim C2 counterexample: at stage 800 x 600, natural image 1600 x 1200 and
scale 2 the displayed width 1600 exceeds the stage, the candidate (-800, -600)
is returned unchanged by clampOffset (it lies in the claimed interval), yet
the right edge of the displayed image sits at stage coordinate 400 < 800: the
image does not cover the whole stage axis. -/
theorem c2_coverage_counterexample :
    clampOffset ⟨800, 600, 1600, 1200⟩ 2 ⟨-800, -600⟩ = ⟨-800, -600⟩ ∧
    (800 : ℚ) ≤ displayedImageWidth ⟨800, 600, 1600, 1200⟩ 2 ∧
    baseX ⟨800, 600, 1600, 1200⟩ 2
        + (clampOffset ⟨800, 600, 1600, 1200⟩ 2 ⟨-800, -600⟩).x
        + displayedImageWidth ⟨800, 600, 1600, 1200⟩ 2 < 800 := by
  norm_num [clampOffset, displayedImageWidth, displayedImageHeight, baseX, baseY,
    max_def, min_def]

/-- Claim C7 (amended): handleRectTransformEnd resets the node scale factors
to 1, keeps the node frame otherwise, and stores as the new selection the
rectangle with x, y from the node and width = round(width * scaleX),
height = round(height * scaleY); the rectangle is stored directly, without a
clampToStage pass. -/
theorem c7_transform_end_amended (n : RectNode) :
    (handleRectTransformEnd n).1.scaleX = 1 ∧
    (handleRectTransformEnd n).1.scaleY = 1 ∧
    (handleRectTransformEnd n).1.x = n.x ∧
    (handleRectTransformEnd n).1.y = n.y ∧
    (handleRectTransformEnd n).1.width = n.width ∧
    (handleRectTransformEnd n).1.height = n.height ∧
    (handleRectTransformEnd n).2
      = { x := n.x, y := n.y, width := (jround (n.width * n.scaleX) : ℚ),
          height := (jround (n.height * n.scaleY) : ℚ) } :=
  ⟨rfl, rfl, rfl, rfl, rfl, rfl, rfl⟩

/-- Claim C7 counterexample: on an 800 x 600 stage, ending a transform on the
node (500, 400, 200, 150) with scale factors (2, 2) stores the selection
(500, 400, 400, 300), which is not a fixed point of clampSelection: the
stored state was not passed through the stage clamp. -/
theorem c7_noclamp_counterexample :
    (handleRectTransformEnd ⟨500, 400, 200, 150, 2, 2⟩).2 = ⟨500, 400, 400, 300⟩ ∧
    clampSelection 800 600 ((handleRectTransformEnd ⟨500, 400, 200, 150, 2, 2⟩).2)
        ≠ (handleRectTransformEnd ⟨500, 400, 200, 150, 2, 2⟩).2 := by
  have h : (handleRectTransformEnd ⟨500, 400, 200, 150, 2, 2⟩).2
      = ⟨500, 400, 400, 300⟩ := by
    simp only [handleRectTransformEnd]
    norm_num [jround]
  refine ⟨h, ?_⟩
  rw [h]
  norm_num [clampSelection]

/-- Claim C8 (amended): re-applying the zoom with the same requested scale
keeps the scale and replaces the offset by clampOffset of the first offset
under the post-zoom geometry; the second application is the identity exactly
when the first offset already satisfies the post-zoom clamp, but not in
general, because the first application clamps with the stale pre-zoom
geometry. -/
theorem c8_zoom_reapply (e : Env) (scale px py s : ℚ) (off : Offset) :
    zoomAt e (zoomAt e scale off px py s).1 (zoomAt e scale off px py s).2 px py s
      = ((zoomAt e scale off px py s).1,
         clampOffset e (zoomAt e scale off px py s).1 (zoomAt e scale off px py s).2) := by
  have hc : zoomClampedScale s ≠ 0 := by
    unfold zoomClampedScale
    exact ne_of_gt (lt_max_of_lt_left (by norm_num))
  have hraw : zoomRawOffset e (zoomClampedScale s)
      (clampOffset e scale (zoomRawOffset e scale off px py s)) px py s
      = clampOffset e scale (zoomRawOffset e scale off px py s) := by
    ext
    · simp only [zoomRawOffset, imagePointBefore]
      rw [div_mul_cancel₀ _ hc]
      ring
    · simp only [zoomRawOffset, imagePointBefore]
      rw [div_mul_cancel₀ _ hc]
      ring
  simp only [zoomAt, hraw]

/-- Claim C8 counterexample: from scale 2 and offset (-800, 0) at pointer
(0, 300) with requested scale 1, the first zoom yields offset (-200, 0) (the
stale clamp range still allowed it), while re-applying the identical zoom
re-clamps against the scale-1 geometry and moves the offset to (0, 0): the
second application is not the identity. -/
theorem c8_not_idempotent_counterexample :
    zoomAt ⟨800, 600, 1600, 1200⟩ 2 ⟨-800, 0⟩ 0 300 1 = (1, ⟨-200, 0⟩) ∧
    zoomAt ⟨800, 600, 1600, 1200⟩ 1 ⟨-200, 0⟩ 0 300 1 = (1, ⟨0, 0⟩) ∧
    ((1 : ℚ), (⟨0, 0⟩ : Offset)) ≠ ((1 : ℚ), (⟨-200, 0⟩ : Offset)) := by
  refine ⟨?_, ?_, ?_⟩ <;>
    norm_num [zoomAt, zoomClampedScale, zoomRawOffset, imagePointBefore, clampOffset,
      baseX, baseY, displayedImageWidth, displayedImageHeight, max_def, min_def,
      Prod.ext_iff]

/-- Result of a DPI metadata parser: a DPI pair, the explicit unknown
result, or the no-metadata result (null in the source). -/
inductive DpiOut where
  | dpi (x y : ℤ)
  | unknown
  | noMeta
deriving DecidableEq

/-- Byte lookup in a buffer: the byte at the index, or none past the end. -/
def byteAt : List ℕ → ℕ → Option ℕ
  | [], _ => none
  | a :: _, 0 => some a
  | _ :: l, n + 1 => byteAt l n

/-- DataView.getUint8: the byte at the offset, or a thrown RangeError when
the offset is past the end of the buffer. -/
def readU8 (b : List ℕ) (o : ℕ) : Except Unit ℕ :=
  match byteAt b o with
  | some v => .ok v
  | none => .error ()

/-- DataView.getUint16 (big endian). -/
def readU16be (b : List ℕ) (o : ℕ) : Except Unit ℕ :=
  match readU8 b o, readU8 b (o + 1) with
  | .ok a, .ok a1 => .ok (a * 256 + a1)
  | _, _ => .error ()

/-- DataView.getUint16 with littleEndian = true. -/
def readU16le (b : List ℕ) (o : ℕ) : Except Unit ℕ :=
  match readU8 b o, readU8 b (o + 1) with
  | .ok a, .ok a1 => .ok (a1 * 256 + a)
  | _, _ => .error ()

/-- DataView.getUint32 (big endian). -/
def readU32be (b : List ℕ) (o : ℕ) : Except Unit ℕ :=
  match readU8 b o, readU8 b (o + 1), readU8 b (o + 2), readU8 b (o + 3) with
  | .ok a, .ok a1, .ok a2, .ok a3 => .ok (((a * 256 + a1) * 256 + a2) * 256 + a3)
  | _, _, _, _ => .error ()

/-- DataView.getUint32 with littleEndian = true. -/
def readU32le (b : List ℕ) (o : ℕ) : Except Unit ℕ :=
  match readU8 b o, readU8 b (o + 1), readU8 b (o + 2), readU8 b (o + 3) with
  | .ok a, .ok a1, .ok a2, .ok a3 => .ok (((a3 * 256 + a2) * 256 + a1) * 256 + a)
  | _, _, _, _ => .error ()

/-- Bytes of the PNG signature 89 50 4E 47 0D 0A 1A 0A. -/
def pngSig : List ℕ := [137, 80, 78, 71, 13, 10, 26, 10]

/-- ASCII bytes of the chunk type pHYs. -/
def physType : List ℕ := [112, 72, 89, 115]

/-- Chunk walk of parsePNG_DPI: while offset + 8 < byteLength read the 4-byte
big-endian length and the 4-byte type; on a pHYs chunk of length at least 9
read the two pixels-per-unit values and the unit byte (these reads can run
past a truncated buffer and throw) and return the DPI when unit = 1 and both
values are non-zero, otherwise the unknown result; on any other chunk advance
by 8 + length + 4.  The fuel argument only bounds the number of iterations;
each iteration advances the offset by at least 12, so byteLength is always
enough fuel. -/
def pngChunkLoop (b : List ℕ) : ℕ → ℕ → Except Unit DpiOut
  | _, 0 => .ok .noMeta
  | offset, fuel + 1 =>
    if offset + 8 < b.length then
      match readU32be b offset, readU8 b (offset + 4), readU8 b (offset + 5),
          readU8 b (offset + 6), readU8 b (offset + 7) with
      | .ok len, .ok t0, .ok t1, .ok t2, .ok t3 =>
        if [t0, t1, t2, t3] = physType ∧ 9 ≤ len then
          match readU32be b (offset + 8), readU32be b (offset + 12), readU8 b (offset + 16) with
          | .ok px, .ok py, .ok u =>
            if u = 1 ∧ px ≠ 0 ∧ py ≠ 0 then
              .ok (.dpi (jround ((px : ℚ) * (254 / 10000))) (jround ((py : ℚ) * (254 / 10000))))
            else .ok .unknown
          | _, _, _ => .error ()
        else pngChunkLoop b (offset + 8 + len + 4) fuel
      | _, _, _, _, _ => .error ()
    else .ok .noMeta

/-- parsePNG_DPI: buffers shorter than 24 bytes and buffers without the PNG
signature yield the no-metadata result; otherwise the chunk walk starts at
offset 8. -/
def parsePNG_DPI (b : List ℕ) : Except Unit DpiOut :=
  if b.length < 24 then .ok .noMeta
  else if b.take 8 = pngSig then pngChunkLoop b 8 b.length
  else .ok .noMeta

/-- ASCII+NUL bytes of the EXIF header Exif\0\0. -/
def exifMagic : List ℕ := [69, 120, 105, 102, 0, 0]

/-- Byte-order dependent getUint16 of the TIFF reader. -/
def getU16 (b : List ℕ) (little : Bool) (o : ℕ) : Except Unit ℕ :=
  if little then readU16le b o else readU16be b o

/-- Byte-order dependent getUint32 of the TIFF reader. -/
def getU32 (b : List ℕ) (little : Bool) (o : ℕ) : Except Unit ℕ :=
  if little then readU32le b o else readU32be b o

/-- Accumulator of the IFD0 entry loop: XResolution, YResolution (null when
absent or with denominator 0) and the resolution unit (default 2). -/
structure ExifAcc where
  xRes : Option ℚ
  yRes : Option ℚ
  resUnit : ℕ
deriving DecidableEq

/-- IFD0 entry loop of parseJPEG_EXIF_DPI: for each 12-byte entry read the
tag; tags 0x011A/0x011B dereference a rational (numerator/denominator, null
when the denominator is 0) through a pointer relative to the TIFF header;
tag 0x0128 reads the inline resolution unit, kept only when non-zero. -/
def exifEntries (b : List ℕ) (little : Bool) (tiffOffset ifd0 : ℕ) :
    ℕ → ℕ → ExifAcc → Except Unit ExifAcc
  | _, 0, acc => .ok acc
  | i, n + 1, acc => do
    let entryOffset := ifd0 + 2 + i * 12
    let tag ← getU16 b little entryOffset
    let valueOffset := entryOffset + 8
    let acc1 ←
      if tag = 282 ∨ tag = 283 then do
        let valPtrRel ← getU32 b little valueOffset
        let valPtr := tiffOffset + valPtrRel
        let num ← getU32 b little valPtr
        let den ← getU32 b little (valPtr + 4)
        let val : Option ℚ := if den ≠ 0 then some ((num : ℚ) / (den : ℚ)) else none
        pure (if tag = 282 then { acc with xRes := val } else { acc with yRes := val })
      else pure acc
    let acc2 ←
      if tag = 296 then do
        let v ← getU16 b little valueOffset
        pure { acc1 with resUnit := if v ≠ 0 then v else acc1.resUnit }
      else pure acc1
    exifEntries b little tiffOffset ifd0 (i + 1) n acc2

/-- TIFF structure reader of parseJPEG_EXIF_DPI, the body of the try block:
byte-order marker, IFD0 offset, entry count, entry loop; when both
resolutions are present and non-zero (JavaScript truthiness) return the DPI,
converted from centimeters when the unit is 3; otherwise fall through
(ok none) so the caller keeps walking markers. -/
def parseTIFF (b : List ℕ) (tiffOffset : ℕ) : Except Unit (Option DpiOut) := do
  let bom ← readU16be b tiffOffset
  let little := bom = 18761
  let ifdRel ← getU32 b little (tiffOffset + 4)
  let ifd0 := tiffOffset + ifdRel
  let entries ← getU16 b little ifd0
  let acc ← exifEntries b little tiffOffset ifd0 0 entries ⟨none, none, 2⟩
  match acc.xRes, acc.yRes with
  | some x, some y =>
    if x ≠ 0 ∧ y ≠ 0 then
      if acc.resUnit = 3 then
        pure (some (.dpi (jround (x * (254 / 100))) (jround (y * (254 / 100)))))
      else pure (some (.dpi (jround x) (jround y)))
    else pure none
  | _, _ => pure none

/-- Marker walk of parseJPEG_EXIF_DPI: while pos + 4 < byteLength, stop on a
byte other than FF; on marker E1 read the six header bytes (these reads can
run past a truncated buffer and throw); when they spell Exif\0\0, run the
TIFF reader inside try/catch: a thrown error is caught and returns the
no-metadata result, a found DPI is returned, and otherwise the walk continues
at pos + 2 + segmentLength. -/
def jpegLoop (b : List ℕ) : ℕ → ℕ → Except Unit DpiOut
  | _, 0 => .ok .noMeta
  | pos, fuel + 1 =>
    if pos + 4 < b.length then
      match readU8 b pos with
      | .error e => .error e
      | .ok m0 =>
        if m0 = 255 then
          match readU8 b (pos + 1), readU16be b (pos + 2) with
          | .ok marker, .ok len =>
            if marker = 225 then
              match readU8 b (pos + 4), readU8 b (pos + 5), readU8 b (pos + 6),
                  readU8 b (pos + 7), readU8 b (pos + 8), readU8 b (pos + 9) with
              | .ok h0, .ok h1, .ok h2, .ok h3, .ok h4, .ok h5 =>
                if [h0, h1, h2, h3, h4, h5] = exifMagic then
                  match parseTIFF b (pos + 10) with
                  | .error _ => .ok .noMeta
                  | .ok (some d) => .ok d
                  | .ok none => jpegLoop b (pos + 2 + len) fuel
                else jpegLoop b (pos + 2 + len) fuel
              | _, _, _, _, _, _ => .error ()
            else jpegLoop b (pos + 2 + len) fuel
          | _, _ => .error ()
        else .ok .noMeta
    else .ok .noMeta

/-- parseJPEG_EXIF_DPI: check the SOI marker FF D8 with the JavaScript
short-circuit read order (the second byte is only read when the first is FF),
then walk markers from pos = 2. -/
def parseJPEG_EXIF_DPI (b : List ℕ) : Except Unit DpiOut :=
  match readU8 b 0 with
  | .error e => .error e
  | .ok b0 =>
    if b0 = 255 then
      match readU8 b 1 with
      | .error e => .error e
      | .ok b1 => if b1 = 216 then jpegLoop b 2 b.length else .ok .noMeta
    else .ok .noMeta

/-- PNG buffer of exactly 24 bytes: signature, pHYs chunk header declaring
length 9, and only 8 of the 9 declared payload bytes, so the unit byte read
at offset 24 is out of bounds. -/
def pngTruncatedPhys : List ℕ :=
  pngSig ++ [0, 0, 0, 9] ++ physType ++ [0, 0, 0, 0, 0, 0, 0, 0]

/-- Claim C5 (code bug witness): every 4-byte buffer makes both metadata
parsers return the no-metadata result without an exception, as the claim
states; but the PNG parser is not exception-free on all truncated buffers:
on the 24-byte buffer whose pHYs chunk declares 9 payload bytes and provides
only 8, the unit-byte read at offset 24 runs past the buffer and the
RangeError escapes the parser. -/
theorem c5_truncation_behaviour :
    (∀ b0 b1 b2 b3 : ℕ,
        parsePNG_DPI [b0, b1, b2, b3] = .ok .noMeta ∧
        parseJPEG_EXIF_DPI [b0, b1, b2, b3] = .ok .noMeta) ∧
    parsePNG_DPI pngTruncatedPhys = .error () := by
  refine ⟨fun b0 b1 b2 b3 => ⟨by simp [parsePNG_DPI], ?_⟩, by rfl⟩
  have h0 : readU8 [b0, b1, b2, b3] 0 = .ok b0 := rfl
  have h1 : readU8 [b0, b1, b2, b3] 1 = .ok b1 := rfl
  simp only [parseJPEG_EXIF_DPI, h0, h1]
  split_ifs <;> rfl

/-- Big-endian 4-byte encoding of a 32-bit value, as stored in PNG chunk
length and pHYs fields. -/
def u32bytes (n : ℕ) : List ℕ :=
  [n / 16777216 % 256, n / 65536 % 256, n / 256 % 256, n % 256]

/-- Abstract PNG chunk: type bytes, payload and CRC bytes. -/
structure PngChunk where
  typ : List ℕ
  data : List ℕ
  crc : List ℕ

/-- Byte encoding of a chunk: big-endian payload length, type, payload, CRC. -/
def encodeChunk (c : PngChunk) : List ℕ :=
  u32bytes c.data.length ++ c.typ ++ c.data ++ c.crc

/-- Byte encoding of a chunk sequence. -/
def encodeChunks : List PngChunk → List ℕ
  | [] => []
  | c :: cs => encodeChunk c ++ encodeChunks cs

/-- Well-formed non-pHYs chunk: 4 type bytes that are not pHYs, a payload
length representable in 32 bits, and a 4-byte CRC. -/
def ChunkWF (c : PngChunk) : Prop :=
  c.typ.length = 4 ∧ c.typ ≠ physType ∧ c.data.length < 4294967296 ∧ c.crc.length = 4

/-- Byte lookup past a known prefix. -/
theorem byteAt_append (pfx l : List ℕ) (i : ℕ) :
    byteAt (pfx ++ l) (pfx.length + i) = byteAt l i := by
  induction pfx with
  | nil => simp [byteAt]
  | cons a t ih =>
    have h2 : (a :: t).length + i = (t.length + i) + 1 := by
      simp only [List.length_cons]
      omega
    rw [List.cons_append, h2]
    exact ih

/-- getUint8 past a known prefix. -/
theorem readU8_append (pfx l : List ℕ) (n i : ℕ) (h : n = pfx.length + i) :
    readU8 (pfx ++ l) n = readU8 l i := by
  subst h
  unfold readU8
  rw [byteAt_append]

/-- getUint32 past a known prefix. -/
theorem readU32be_append (pfx l : List ℕ) (n : ℕ) (h : n = pfx.length) :
    readU32be (pfx ++ l) n = readU32be l 0 := by
  subst h
  unfold readU32be
  rw [readU8_append pfx l pfx.length 0 (by omega),
      readU8_append pfx l (pfx.length + 1) 1 (by omega),
      readU8_append pfx l (pfx.length + 2) 2 (by omega),
      readU8_append pfx l (pfx.length + 3) 3 (by omega)]

/-- getUint32 of an encoded 32-bit value recovers the value. -/
theorem readU32be_u32bytes (n : ℕ) (h : n < 4294967296) (rest : List ℕ) :
    readU32be (u32bytes n ++ rest) 0 = .ok n := by
  have e1 : readU32be (u32bytes n ++ rest) 0
      = .ok (((n / 16777216 % 256 * 256 + n / 65536 % 256) * 256
          + n / 256 % 256) * 256 + n % 256) := by rfl
  rw [e1]
  congr 1
  omega

/-- Destructuring of a 4-byte list. -/
theorem list_eq_of_length_four {l : List ℕ} (h : l.length = 4) :
    ∃ a b c d, l = [a, b, c, d] := by
  rcases l with _ | ⟨a, _ | ⟨b, _ | ⟨c, _ | ⟨d, _ | ⟨e, tl⟩⟩⟩⟩⟩ <;> simp_all

/-- Each encoded chunk contributes at least one byte. -/
theorem encodeChunks_length_ge (pre : List PngChunk) :
    pre.length ≤ (encodeChunks pre).length := by
  induction pre with
  | nil => simp [encodeChunks]
  | cons c cs ih =>
    simp only [encodeChunks, List.length_append, List.length_cons, encodeChunk, u32bytes,
      List.length_nil]
    omega

/-- The chunk walk steps over one well-formed non-pHYs chunk, advancing the
offset by the chunk's encoded size and consuming one unit of fuel. -/
theorem pngChunkLoop_skip_one (pfx rest : List ℕ) (c : PngChunk) (fuel : ℕ)
    (hwf : ChunkWF c) :
    pngChunkLoop (pfx ++ (encodeChunk c ++ rest)) pfx.length (fuel + 1)
      = pngChunkLoop (pfx ++ (encodeChunk c ++ rest))
          (pfx.length + (encodeChunk c).length) fuel := by
  obtain ⟨h4, hne, hlt, hcrc⟩ := hwf
  obtain ⟨t0, t1, t2, t3, htyp⟩ := list_eq_of_length_four h4
  have hb : pfx ++ (encodeChunk c ++ rest)
      = pfx ++ (u32bytes c.data.length ++ ([t0, t1, t2, t3] ++ (c.data ++ (c.crc ++ rest)))) := by
    simp [encodeChunk, htyp, List.append_assoc]
  have hlen : (pfx ++ (encodeChunk c ++ rest)).length
      = pfx.length + (12 + c.data.length + rest.length) := by
    simp [encodeChunk, htyp, u32bytes, List.length_append]
    omega
  have hcond : pfx.length + 8 < (pfx ++ (encodeChunk c ++ rest)).length := by
    rw [hlen]
    omega
  have hr1 : readU32be (pfx ++ (encodeChunk c ++ rest)) pfx.length = .ok c.data.length := by
    rw [hb, readU32be_append pfx _ _ rfl, readU32be_u32bytes _ hlt]
  have hpre4 : (pfx ++ u32bytes c.data.length).length = pfx.length + 4 := by
    simp [u32bytes]
  have ht0 : readU8 (pfx ++ (encodeChunk c ++ rest)) (pfx.length + 4) = .ok t0 := by
    rw [hb, ← List.append_assoc, readU8_append _ _ _ 0 (by rw [hpre4])]
    rfl
  have ht1 : readU8 (pfx ++ (encodeChunk c ++ rest)) (pfx.length + 5) = .ok t1 := by
    rw [hb, ← List.append_assoc, readU8_append _ _ _ 1 (by rw [hpre4])]
    rfl
  have ht2 : readU8 (pfx ++ (encodeChunk c ++ rest)) (pfx.length + 6) = .ok t2 := by
    rw [hb, ← List.append_assoc, readU8_append _ _ _ 2 (by rw [hpre4])]
    rfl
  have ht3 : readU8 (pfx ++ (encodeChunk c ++ rest)) (pfx.length + 7) = .ok t3 := by
    rw [hb, ← List.append_assoc, readU8_append _ _ _ 3 (by rw [hpre4])]
    rfl
  have hguard : ¬ ([t0, t1, t2, t3] = physType ∧ 9 ≤ c.data.length) := by
    intro hcontra
    exact hne (htyp ▸ hcontra.1)
  have hoff : pfx.length + 8 + c.data.length + 4 = pfx.length + (encodeChunk c).length := by
    simp [encodeChunk, htyp, u32bytes, List.length_append]
    omega
  conv_lhs => rw [pngChunkLoop]
  rw [if_pos hcond, hr1, ht0, ht1, ht2, ht3]
  simp only [if_neg hguard]
  rw [hoff]

/-- The chunk walk steps over any sequence of well-formed non-pHYs chunks. -/
theorem pngChunkLoop_skip_chunks (pre : List PngChunk) :
    ∀ (pfx post : List ℕ) (fuel : ℕ), (∀ c ∈ pre, ChunkWF c) →
    pngChunkLoop (pfx ++ (encodeChunks pre ++ post)) pfx.length (fuel + pre.length)
      = pngChunkLoop (pfx ++ (encodeChunks pre ++ post))
          (pfx.length + (encodeChunks pre).length) fuel := by
  induction pre with
  | nil =>
    intro pfx post fuel _
    simp [encodeChunks]
  | cons c cs ih =>
    intro pfx post fuel hwf
    have hassoc : pfx ++ (encodeChunks (c :: cs) ++ post)
        = pfx ++ (encodeChunk c ++ (encodeChunks cs ++ post)) := by
      simp [encodeChunks, List.append_assoc]
    have hfuel : fuel + (c :: cs).length = (fuel + cs.length) + 1 := by
      simp only [List.length_cons]
      omega
    rw [hassoc, hfuel,
      pngChunkLoop_skip_one pfx (encodeChunks cs ++ post) c (fuel + cs.length)
        (hwf c (by simp))]
    have h2 := ih (pfx ++ encodeChunk c) post fuel (fun d hd => hwf d (by simp [hd]))
    rw [List.append_assoc] at h2
    rw [List.length_append] at h2
    rw [h2]
    have hlen2 : (encodeChunks (c :: cs)).length
        = (encodeChunk c).length + (encodeChunks cs).length := by
      simp [encodeChunks, List.length_append]
    rw [hlen2]
    congr 1
    omega

/-- Arriving at a pHYs chunk of declared length at least 9, the chunk walk
reads the two pixels-per-unit values and the unit byte and returns the DPI
when unit = 1 and both values are non-zero, the unknown result otherwise. -/
theorem pngChunkLoop_phys_hit (pfx tail : List ℕ) (L px py unit fuel : ℕ)
    (hL9 : 9 ≤ L) (hL : L < 4294967296) (hpx : px < 4294967296) (hpy : py < 4294967296) :
    pngChunkLoop
        (pfx ++ (u32bytes L ++ (physType ++ (u32bytes px ++ (u32bytes py ++ ([unit] ++ tail))))))
        pfx.length (fuel + 1)
      = .ok (if unit = 1 ∧ px ≠ 0 ∧ py ≠ 0 then
               .dpi (jround ((px : ℚ) * (254 / 10000))) (jround ((py : ℚ) * (254 / 10000)))
             else .unknown) := by
  set b := pfx ++ (u32bytes L ++ (physType ++ (u32bytes px ++ (u32bytes py ++ ([unit] ++ tail)))))
    with hbdef
  have hlen : b.length = pfx.length + (17 + tail.length) := by
    simp [hbdef, u32bytes, physType, List.length_append]
    omega
  have hcond : pfx.length + 8 < b.length := by
    rw [hlen]
    omega
  have hr1 : readU32be b pfx.length = .ok L := by
    rw [hbdef, readU32be_append pfx _ _ rfl, readU32be_u32bytes _ hL]
  have hpre4 : (pfx ++ u32bytes L).length = pfx.length + 4 := by
    simp [u32bytes]
  have ht0 : readU8 b (pfx.length + 4) = .ok 112 := by
    rw [hbdef, ← List.append_assoc, readU8_append _ _ _ 0 (by rw [hpre4])]
    rfl
  have ht1 : readU8 b (pfx.length + 5) = .ok 72 := by
    rw [hbdef, ← List.append_assoc, readU8_append _ _ _ 1 (by rw [hpre4])]
    rfl
  have ht2 : readU8 b (pfx.length + 6) = .ok 89 := by
    rw [hbdef, ← List.append_assoc, readU8_append _ _ _ 2 (by rw [hpre4])]
    rfl
  have ht3 : readU8 b (pfx.length + 7) = .ok 115 := by
    rw [hbdef, ← List.append_assoc, readU8_append _ _ _ 3 (by rw [hpre4])]
    rfl
  have hpre8 : (pfx ++ (u32bytes L ++ physType)).length = pfx.length + 8 := by
    simp [u32bytes, physType, List.length_append]
  have hrpx : readU32be b (pfx.length + 8) = .ok px := by
    have hb2 : b = (pfx ++ (u32bytes L ++ physType))
        ++ (u32bytes px ++ (u32bytes py ++ ([unit] ++ tail))) := by
      simp [hbdef, List.append_assoc]
    rw [hb2, readU32be_append _ _ _ (by rw [hpre8]), readU32be_u32bytes _ hpx]
  have hpre12 : (pfx ++ (u32bytes L ++ (physType ++ u32bytes px))).length = pfx.length + 12 := by
    simp [u32bytes, physType, List.length_append]
  have hrpy : readU32be b (pfx.length + 12) = .ok py := by
    have hb3 : b = (pfx ++ (u32bytes L ++ (physType ++ u32bytes px)))
        ++ (u32bytes py ++ ([unit] ++ tail)) := by
      simp [hbdef, List.append_assoc]
    rw [hb3, readU32be_append _ _ _ (by rw [hpre12]), readU32be_u32bytes _ hpy]
  have hpre16 : (pfx ++ (u32bytes L ++ (physType ++ (u32bytes px ++ u32bytes py)))).length
      = pfx.length + 16 := by
    simp [u32bytes, physType, List.length_append]
  have hru : readU8 b (pfx.length + 16) = .ok unit := by
    have hb4 : b = (pfx ++ (u32bytes L ++ (physType ++ (u32bytes px ++ u32bytes py))))
        ++ ([unit] ++ tail) := by
      simp [hbdef, List.append_assoc]
    rw [hb4, readU8_append _ _ _ 0 (by rw [hpre16])]
    rfl
  have hguard : ([112, 72, 89, 115] = physType ∧ 9 ≤ L) := ⟨rfl, hL9⟩
  conv_lhs => rw [pngChunkLoop]
  rw [if_pos hcond, hr1, ht0, ht1, ht2, ht3]
  simp only [if_pos hguard]
  rw [hrpx, hrpy, hru]
  dsimp only
  split_ifs <;> rfl

/-- Claim C9: for every PNG buffer made of the signature, any well-formed
non-pHYs chunks and then a pHYs chunk declaring length at least 9, the parser
reports round(px * 0.0254) by round(py * 0.0254) DPI when the unit code is 1
and both pixels-per-unit values are non-zero, and the unknown result when the
unit is not 1 or a value is zero; the bytes after the unit byte are
irrelevant. -/
theorem c9_png_phys_dpi (pre : List PngChunk) (hpre : ∀ c ∈ pre, ChunkWF c)
    (L px py unit : ℕ) (tail : List ℕ)
    (hL9 : 9 ≤ L) (hL : L < 4294967296) (hpx : px < 4294967296) (hpy : py < 4294967296) :
    parsePNG_DPI (pngSig ++ (encodeChunks pre ++ (u32bytes L ++ (physType
        ++ (u32bytes px ++ (u32bytes py ++ ([unit] ++ tail)))))))
      = .ok (if unit = 1 ∧ px ≠ 0 ∧ py ≠ 0 then
               .dpi (jround ((px : ℚ) * (254 / 10000))) (jround ((py : ℚ) * (254 / 10000)))
             else .unknown) := by
  have hge := encodeChunks_length_ge pre
  have hlen : (pngSig ++ (encodeChunks pre ++ (u32bytes L ++ (physType
      ++ (u32bytes px ++ (u32bytes py ++ ([unit] ++ tail))))))).length
      = 8 + ((encodeChunks pre).length + (17 + tail.length)) := by
    simp [pngSig, u32bytes, physType, List.length_append]
    omega
  simp only [parsePNG_DPI]
  rw [hlen, if_neg (by omega)]
  have htake : (pngSig ++ (encodeChunks pre ++ (u32bytes L ++ (physType
      ++ (u32bytes px ++ (u32bytes py ++ ([unit] ++ tail))))))).take 8 = pngSig := by
    have h8 : (8 : ℕ) = pngSig.length := rfl
    rw [h8, List.take_left]
  rw [if_pos htake]
  obtain ⟨F, hF⟩ : ∃ F, 8 + ((encodeChunks pre).length + (17 + tail.length))
      = (F + 1) + pre.length :=
    ⟨8 + (encodeChunks pre).length + 17 + tail.length - pre.length - 1, by omega⟩
  rw [hF]
  have h8 : (8 : ℕ) = pngSig.length := rfl
  rw [h8, pngChunkLoop_skip_chunks pre pngSig _ (F + 1) hpre, ← List.append_assoc,
    show pngSig.length + (encodeChunks pre).length = (pngSig ++ encodeChunks pre).length
      from (List.length_append _ _).symm,
    pngChunkLoop_phys_hit _ tail L px py unit F hL9 hL hpx hpy]

/-- Witness for c9_png_phys_dpi: no preceding chunks, declared length 9,
pixels-per-unit 2835 on both axes, unit 1 and a 4-byte CRC tail give
72 x 72 DPI. -/
theorem c9_png_phys_dpi_witness :
    parsePNG_DPI (pngSig ++ (encodeChunks [] ++ (u32bytes 9 ++ (physType
        ++ (u32bytes 2835 ++ (u32bytes 2835 ++ ([1] ++ [0, 0, 0, 0])))))))
      = .ok (.dpi 72 72) := by
  rw [c9_png_phys_dpi [] (by simp) 9 2835 2835 1 [0, 0, 0, 0]
    (by norm_num) (by norm_num) (by norm_num) (by norm_num)]
  norm_num [jround]
